import Mathlib

/-!
Verification of the framing/integrity layer of a dive-computer protocol
(`src/protocol.rs`).  The Rust code serializes headers and payloads with the
`postcard` codec: `u8` fields are raw bytes, `u16`/`u32` fields are LEB128
varints (least-significant 7-bit group first, continuation bit 0x80), and
enums are encoded as the varint of their 0-based variant index.  Bytes are
modelled as `Nat` (values < 256 wherever the source has a `u8`), buffers as
`List Nat`, and fallible operations as `Except`/`Option`.  The payload type
parameter `T : Serialize + Deserialize` is modelled by explicit encode/decode
functions, since the framing layer treats the payload codec as a black box.
-/

namespace DiveProto

set_option maxRecDepth 16384

/-- Equality of `Except` results is decidable when both component types
have decidable equality (used to evaluate concrete runs of the model). -/
instance exceptDecEq {ε α : Type} [DecidableEq ε] [DecidableEq α] :
    DecidableEq (Except ε α)
  | .error e1, .error e2 =>
    if h : e1 = e2 then .isTrue (by rw [h])
    else .isFalse (by intro hh; cases hh; exact h rfl)
  | .error _, .ok _ => .isFalse (by intro hh; cases hh)
  | .ok _, .error _ => .isFalse (by intro hh; cases hh)
  | .ok x, .ok y =>
    if h : x = y then .isTrue (by rw [h])
    else .isFalse (by intro hh; cases hh; exact h rfl)

/-- Constant `MAX_MESSAGE_SIZE: usize = 256` from `src/protocol.rs`. -/
def MAX_MESSAGE_SIZE : Nat := 256

/-- Constant `PROTOCOL_VERSION: u8 = 1` from `src/protocol.rs`. -/
def PROTOCOL_VERSION : Nat := 1

/-- Constant `MESSAGE_MAGIC: [u8; 2] = [0xDC, 0x42]` from `src/protocol.rs`. -/
def MESSAGE_MAGIC : List Nat := [0xDC, 0x42]

/-- Enum `ProtocolError` from `src/protocol.rs`. -/
inductive ProtocolError where
  | MessageTooLarge
  | InvalidFormat
  | ChecksumMismatch
  | InvalidMagic
  | UnsupportedVersion
  | SerializationError
  | DeserializationError
deriving DecidableEq

/-- Enum `MessageKind` from `src/protocol.rs` (explicit discriminants 1..5). -/
inductive MessageKind where
  | Command
  | Response
  | Notification
  | Ack
  | Error
deriving DecidableEq

/-- The Rust discriminant of a `MessageKind` (`kind as u8`): 1..5. -/
def MessageKind.discr : MessageKind → Nat
  | .Command => 1
  | .Response => 2
  | .Notification => 3
  | .Ack => 4
  | .Error => 5

/-- The 0-based variant index used by postcard on the wire: 0..4. -/
def MessageKind.index : MessageKind → Nat
  | .Command => 0
  | .Response => 1
  | .Notification => 2
  | .Ack => 3
  | .Error => 4

/-- Inverse of `MessageKind.index`, as used by postcard enum deserialization
(an out-of-range variant index is a deserialization error). -/
def MessageKind.ofIndex : Nat → Option MessageKind
  | 0 => some .Command
  | 1 => some .Response
  | 2 => some .Notification
  | 3 => some .Ack
  | 4 => some .Error
  | _ => none

/-- Function `calculate_checksum` from `src/protocol.rs`: the 8-bit wrapping sum of
the input bytes (`u8::wrapping_add`), followed by bitwise NOT (`!checksum`,
i.e. xor with 255 on 8 bits). -/
def calculate_checksum (data : List Nat) : Nat :=
  Nat.xor (data.foldl (fun c b => (c + b) % 256) 0) 255

/-- Fuelled worker for the postcard varint (LEB128) encoding: 7 bits per
byte, least significant group first, continuation bit `0x80` on every byte
except the last.  The fuel only bounds the recursion depth; it never runs
out when called with fuel ≥ the value being encoded. -/
def varintEncodeAux : Nat → Nat → List Nat
  | 0, n => [n % 128]
  | fuel + 1, n =>
    if n < 128 then [n] else (n % 128 + 128) :: varintEncodeAux fuel (n / 128)

/-- postcard varint encoding of an unsigned integer (`n` itself is always
enough fuel). -/
def varintEncode (n : Nat) : List Nat := varintEncodeAux n n

/-- postcard `try_take_varint` loop: at most `m` bytes may be consumed, and
the byte in the final allowed position must not exceed `lastMax` (no lost
high bits) and must not carry a continuation bit.  Returns the decoded value
and the unconsumed remainder, or `none` on a bad/short varint. -/
def tryTakeVarint : Nat → Nat → List Nat → Option (Nat × List Nat)
  | 0, _, _ => none
  | _ + 1, _, [] => none
  | m + 1, lastMax, b :: r =>
    if b < 128 then
      if m = 0 ∧ lastMax < b then none else some (b, r)
    else
      if m = 0 then none
      else
        match tryTakeVarint m lastMax r with
        | some (v, r2) => some (b % 128 + v * 128, r2)
        | none => none

/-- postcard `try_take_varint_u16`: at most 3 bytes, last byte ≤ 3. -/
def varintDecodeU16 : List Nat → Option (Nat × List Nat) :=
  tryTakeVarint 3 3

/-- postcard `try_take_varint_u32` (used for enum variant indices): at most
5 bytes, last byte ≤ 15. -/
def varintDecodeU32 : List Nat → Option (Nat × List Nat) :=
  tryTakeVarint 5 15

/-- Struct `MessageHeader` from `src/protocol.rs`.  `magic` models the `[u8; 2]`
array as a two-element list. -/
structure MessageHeader where
  magic : List Nat
  version : Nat
  kind : MessageKind
  sequence : Nat
  payload_length : Nat
  header_checksum : Nat
deriving DecidableEq

/-- Constructor `MessageHeader::new` from `src/protocol.rs`: fills magic/version from the
protocol constants, stores `kind`/`sequence`/`payload_length`, and sets
`header_checksum` to the checksum of the eight bytes
`[magic[0], magic[1], version, kind as u8, sequence >> 8, sequence as u8,
payload_length >> 8, payload_length as u8]` (big-endian byte images of the
`u16` fields).  The source assigns the checksum in a second step reading the
fields of the just-constructed struct; the two steps are collapsed here. -/
def MessageHeader.new (kind : MessageKind) (sequence payload_length : Nat) :
    MessageHeader :=
  { magic := MESSAGE_MAGIC
    version := PROTOCOL_VERSION
    kind := kind
    sequence := sequence
    payload_length := payload_length
    header_checksum := calculate_checksum
      [MESSAGE_MAGIC.getD 0 0, MESSAGE_MAGIC.getD 1 0,
       PROTOCOL_VERSION, kind.discr,
       sequence / 256 % 256, sequence % 256,
       payload_length / 256 % 256, payload_length % 256] }

/-- Method `MessageHeader::validate_checksum` from `src/protocol.rs`: recompute the
checksum over the same eight-byte image and compare with the stored field. -/
def MessageHeader.validate_checksum (h : MessageHeader) : Bool :=
  calculate_checksum
    [h.magic.getD 0 0, h.magic.getD 1 0,
     h.version, h.kind.discr,
     h.sequence / 256 % 256, h.sequence % 256,
     h.payload_length / 256 % 256, h.payload_length % 256]
    == h.header_checksum

/-- postcard serialization of a `MessageHeader` (what
`postcard::to_slice(&self.header, ..)` writes): raw magic bytes, raw version
byte, varint of the variant index of the kind, varint `sequence`, varint
`payload_length`, raw checksum byte. -/
def headerEncode (h : MessageHeader) : List Nat :=
  h.magic ++ [h.version] ++ varintEncode h.kind.index ++
    varintEncode h.sequence ++ varintEncode h.payload_length ++
    [h.header_checksum]

/-- postcard deserialization of a `MessageHeader` from the front of a buffer
(what `postcard::take_from_bytes::<MessageHeader>` does): two raw magic
bytes, raw version byte, varint-u32 variant index (must name a variant),
varint-u16 `sequence`, varint-u16 `payload_length`, raw checksum byte.
Returns the header and the unconsumed remainder. -/
def headerDecode (data : List Nat) : Option (MessageHeader × List Nat) :=
  match data with
  | m0 :: m1 :: v :: r =>
    match varintDecodeU32 r with
    | some (ki, r2) =>
      match MessageKind.ofIndex ki with
      | some k =>
        match varintDecodeU16 r2 with
        | some (sq, r3) =>
          match varintDecodeU16 r3 with
          | some (pl, r4) =>
            match r4 with
            | c :: r5 =>
              some (⟨[m0, m1], v, k, sq, pl, c⟩, r5)
            | [] => none
          | none => none
        | none => none
      | none => none
    | none => none
  | _ => none

/-- Struct `Message` from `src/protocol.rs`. -/
structure Message (T : Type) where
  header : MessageHeader
  payload : T
  payload_checksum : Nat
deriving DecidableEq

/-- Constructor `Message::new` from `src/protocol.rs`.  `enc` models the postcard
serialization of the payload type `T` (`none` = serde failure); writing into
the `MAX_MESSAGE_SIZE` stack buffer fails (`Err` → `SerializationError`)
exactly when the encoding is longer than the buffer.  A successful encoding
longer than `u16::MAX` would yield `MessageTooLarge`. -/
def Message.new {T : Type} (enc : T → Option (List Nat)) (kind : MessageKind)
    (sequence : Nat) (payload : T) : Except ProtocolError (Message T) :=
  match enc payload with
  | none => .error .SerializationError
  | some pb =>
    if MAX_MESSAGE_SIZE < pb.length then .error .SerializationError
    else if 65535 < pb.length then .error .MessageTooLarge
    else .ok ⟨MessageHeader.new kind sequence pb.length, payload,
              calculate_checksum pb⟩

/-- Method `Message::serialize` from `src/protocol.rs`: postcard-encode the header
at offset 0 of a zeroed `MAX_MESSAGE_SIZE` buffer, postcard-encode the
payload right after it (either write fails with `SerializationError` when it
does not fit in the remaining space), then require one free byte for the
trailing payload checksum (`MessageTooLarge` otherwise) and append it.
Returns the number of bytes written and the full fixed-size buffer. -/
def Message.serialize {T : Type} (enc : T → Option (List Nat))
    (m : Message T) : Except ProtocolError (Nat × List Nat) :=
  let hb := headerEncode m.header
  if MAX_MESSAGE_SIZE < hb.length then .error .SerializationError
  else
    match enc m.payload with
    | none => .error .SerializationError
    | some pb =>
      if MAX_MESSAGE_SIZE - hb.length < pb.length then
        .error .SerializationError
      else if MAX_MESSAGE_SIZE ≤ hb.length + pb.length then
        .error .MessageTooLarge
      else
        .ok (hb.length + pb.length + 1,
          (hb ++ pb ++ [m.payload_checksum]) ++
            List.replicate (MAX_MESSAGE_SIZE - (hb.length + pb.length + 1)) 0)

/-- Parser `<Message as TryFrom<&[u8]>>::try_from` from `src/protocol.rs`.  `dec`
models `postcard::from_bytes::<T>` on the payload slice. -/
def Message.tryFrom {T : Type} (dec : List Nat → Option T)
    (data : List Nat) : Except ProtocolError (Message T) :=
  if data.length < 9 then .error .InvalidFormat
  else
    match headerDecode data with
    | none => .error .DeserializationError
    | some (header, rest) =>
      let header_size := data.length - rest.length
      if header.magic ≠ MESSAGE_MAGIC then .error .InvalidMagic
      else if header.version ≠ PROTOCOL_VERSION then
        .error .UnsupportedVersion
      else if header.validate_checksum = false then
        .error .ChecksumMismatch
      else if data.length < header_size + header.payload_length + 1 then
        .error .InvalidFormat
      else
        let payload_data := (data.drop header_size).take header.payload_length
        match dec payload_data with
        | none => .error .DeserializationError
        | some payload =>
          let pc := data.getD (header_size + header.payload_length) 0
          if calculate_checksum payload_data ≠ pc then
            .error .ChecksumMismatch
          else .ok ⟨header, payload, pc⟩

/-- postcard codec, encode side, for the Rust unit type `()`: a unit value
encodes to zero bytes (a legitimate instantiation `Message::<()>` of the
generic framing layer). -/
def encUnit : Unit → Option (List Nat) := fun _ => some []

/-- postcard codec, decode side, for `()`: decoding consumes no bytes and
always succeeds. -/
def decUnit : List Nat → Option Unit := fun _ => some ()

/-- postcard codec, encode side, for a fixed byte array `[u8; N]`: the
encoding is the raw bytes, with no length prefix. -/
def encBytes : List Nat → Option (List Nat) := fun l => some l

/-- postcard codec, decode side, for `[u8; N]` applied to a slice of exactly
its own length: yields the bytes themselves. -/
def decBytes : List Nat → Option (List Nat) := fun l => some l

/-- Enum `Command` from `src/commands.rs` (the external payload vocabulary);
`u8`/`u16`/`u32` fields are `Nat`, `[u8; 4]`/`[u8; 32]` fields are lists. -/
inductive Command where
  | ID
  | ReadSensor (sensor_id : Nat) (reading_type : Nat)
  | StartDive
  | EndDive
  | SetParameters (max_depth : Nat) (max_time : Nat)
  | GetParameters
  | LogDive (dive_id : Nat) (data : List Nat)
  | GetDiveLog (dive_id : Nat)
  | GetBatteryStatus
  | EnterLowPowerMode
  | ExitLowPowerMode
  | CalibrateSensors
  | RunDiagnostic
  | FactoryReset
  | UpdateFirmwareStart (version : List Nat) (total_chunks : Nat)
  | UpdateFirmwareChunk (chunk_id : Nat) (data : List Nat)
  | UpdateFirmwareComplete
deriving DecidableEq

/-- postcard encoding of `Command`: varint of the 0-based variant index,
then the fields in order (`u16`/`u32` as varints, `u8` raw, fixed arrays as
raw bytes). -/
def commandEncode : Command → Option (List Nat)
  | .ID => some [0]
  | .ReadSensor sid rt => some ([1] ++ varintEncode sid ++ [rt])
  | .StartDive => some [2]
  | .EndDive => some [3]
  | .SetParameters md mt => some ([4] ++ varintEncode md ++ varintEncode mt)
  | .GetParameters => some [5]
  | .LogDive dive_id d => some ([6] ++ varintEncode dive_id ++ d)
  | .GetDiveLog dive_id => some ([7] ++ varintEncode dive_id)
  | .GetBatteryStatus => some [8]
  | .EnterLowPowerMode => some [9]
  | .ExitLowPowerMode => some [10]
  | .CalibrateSensors => some [11]
  | .RunDiagnostic => some [12]
  | .FactoryReset => some [13]
  | .UpdateFirmwareStart v tc => some ([14] ++ v ++ varintEncode tc)
  | .UpdateFirmwareChunk cid d => some ([15] ++ varintEncode cid ++ d)
  | .UpdateFirmwareComplete => some [16]

/-- The §8 scenario message: `Message::new(Command, 123, GetBatteryStatus)`.
`GetBatteryStatus` postcard-encodes to the single byte `[8]`, whose checksum
is `255 - 8 = 247`. -/
def scenarioMsg : Message Command :=
  ⟨MessageHeader.new .Command 123 1, .GetBatteryStatus, 247⟩

/-- The buffer `Message::serialize` produces for `scenarioMsg`: a 7-byte
postcard header (kind `Command` is variant index 0, sequence 123 and
payload_length 1 are single-byte varints), the payload byte 8, the payload
checksum 247, then zero padding. -/
def scenarioBuf : List Nat :=
  [220, 66, 1, 0, 123, 1, 99, 8, 247] ++ List.replicate 247 0

/-- Result of `Message::<()>::new(Command, 0, ())`: empty payload encoding, so the
whole serialized message is only 8 bytes long. -/
def msgUnit0 : Message Unit := ⟨MessageHeader.new .Command 0 0, (), 255⟩

/-- The buffer `Message::serialize` produces for `msgUnit0`: a 7-byte
header, no payload bytes, the empty-payload checksum 255, zero padding. -/
def bufUnit0 : List Nat :=
  [220, 66, 1, 0, 0, 0, 223, 255] ++ List.replicate 248 0

/-- Result of `Message::<()>::new(Command, 300, ())`: sequence 300 makes the sequence
varint two bytes long, so the serialized message reaches 9 bytes. -/
def msgUnit300 : Message Unit := ⟨MessageHeader.new .Command 300 0, (), 255⟩

/-- The buffer `Message::serialize` produces for `msgUnit300`: 8 header
bytes (two-byte varint 172, 2 for sequence 300), no payload bytes, the
empty-payload checksum 255, then zero padding. -/
def bufUnit300 : List Nat :=
  [220, 66, 1, 0, 172, 2, 0, 178, 255] ++ List.replicate 247 0

/-- Result of `Message::<[u8; 250]>::new(Command, 0, [7; 250])`: the encoded payload
is 250 raw bytes, which fits the 256-byte scratch buffer, so construction
succeeds even though header (8 bytes) + payload (250) + 1 exceeds
`MAX_MESSAGE_SIZE`. -/
def msg250 : Message (List Nat) :=
  ⟨MessageHeader.new .Command 0 250, List.replicate 250 7, 41⟩

/-- A well-formed 9-byte wire message carrying the payload byte 8: 7 header
bytes (payload_length 1, header checksum 222), the payload, its checksum. -/
def goodData : List Nat := [220, 66, 1, 0, 0, 1, 222, 8, 247]

/-- The message `Message::try_from(goodData)` yields. -/
def goodMsg : Message (List Nat) :=
  ⟨⟨[220, 66], 1, .Command, 0, 1, 222⟩, [8], 247⟩

theorem foldl_wrapping_add (l : List Nat) : ∀ a : Nat, a < 256 →
    l.foldl (fun c b => (c + b) % 256) a = (a + l.sum) % 256 := by
  induction l with
  | nil => intro a ha; simp [Nat.mod_eq_of_lt ha]
  | cons b t ih =>
    intro a ha
    simp only [List.foldl_cons, List.sum_cons]
    rw [ih ((a + b) % 256) (Nat.mod_lt _ (by omega))]
    rw [Nat.mod_add_mod]
    congr 1
    omega

theorem xor_255_eq : ∀ s : Nat, s < 256 → Nat.xor s 255 = 255 - s := by decide

theorem calculate_checksum_eq_sum (data : List Nat) :
    calculate_checksum data = Nat.xor (data.sum % 256) 255 := by
  unfold calculate_checksum
  rw [foldl_wrapping_add data 0 (by omega)]
  simp

theorem calculate_checksum_lt (data : List Nat) :
    calculate_checksum data < 256 := by
  rw [calculate_checksum_eq_sum, xor_255_eq _ (Nat.mod_lt _ (by omega))]
  omega

theorem varintEncodeAux_small (fuel n : Nat) (h : n < 128) :
    varintEncodeAux fuel n = [n] := by
  cases fuel with
  | zero => simp [varintEncodeAux, Nat.mod_eq_of_lt h]
  | succ f => simp [varintEncodeAux, h]

theorem varintEncode_small (n : Nat) (h : n < 128) : varintEncode n = [n] :=
  varintEncodeAux_small n n h

theorem varintEncodeAux_fuel_irrel :
    ∀ f1 f2 n : Nat, n ≤ f1 → n ≤ f2 →
      varintEncodeAux f1 n = varintEncodeAux f2 n := by
  intro f1
  induction f1 with
  | zero =>
    intro f2 n h1 h2
    have hn : n = 0 := by omega
    subst hn
    rw [varintEncodeAux_small 0 0 (by omega), varintEncodeAux_small f2 0 (by omega)]
  | succ g ih =>
    intro f2 n h1 h2
    by_cases hn : n < 128
    · rw [varintEncodeAux_small _ n hn, varintEncodeAux_small f2 n hn]
    · cases f2 with
      | zero => omega
      | succ g2 =>
        simp only [varintEncodeAux, hn, if_false]
        rw [ih g2 (n / 128) (by omega) (by omega)]

theorem varintEncode_mid (n : Nat) (h : ¬ n < 128) :
    varintEncode n = (n % 128 + 128) :: varintEncode (n / 128) := by
  unfold varintEncode
  obtain ⟨f, rfl⟩ : ∃ f, n = f + 1 := ⟨n - 1, by omega⟩
  show varintEncodeAux (f + 1) (f + 1) = _
  simp only [varintEncodeAux, h, if_false]
  rw [varintEncodeAux_fuel_irrel f ((f + 1) / 128) ((f + 1) / 128) (by omega)
    (by omega)]

theorem varintDecodeU16_encode (n : Nat) (h : n < 65536) (rest : List Nat) :
    varintDecodeU16 (varintEncode n ++ rest) = some (n, rest) := by
  rcases Nat.lt_or_ge n 128 with h1 | h1
  · rw [varintEncode_small n h1]
    simp [varintDecodeU16, tryTakeVarint, h1]
  · rcases Nat.lt_or_ge n 16384 with h2 | h2
    · rw [varintEncode_mid n (by omega), varintEncode_small (n / 128) (by omega)]
      have hb : ¬ (n % 128 + 128 < 128) := by omega
      have hb2 : n / 128 < 128 := by omega
      simp [varintDecodeU16, tryTakeVarint, hb, hb2]
      omega
    · rw [varintEncode_mid n (by omega), varintEncode_mid (n / 128) (by omega),
          varintEncode_small (n / 128 / 128) (by omega)]
      have hb0 : ¬ (n % 128 + 128 < 128) := by omega
      have hb1 : ¬ (n / 128 % 128 + 128 < 128) := by omega
      have hb2 : n / 128 / 128 < 128 := by omega
      have hb3 : ¬ (3 < n / 128 / 128) := by omega
      simp [varintDecodeU16, tryTakeVarint, hb0, hb1, hb2, hb3]
      omega

theorem varintDecodeU32_small (i : Nat) (rest : List Nat) (hi : i < 128) :
    varintDecodeU32 (i :: rest) = some (i, rest) := by
  simp [varintDecodeU32, tryTakeVarint, hi]

theorem kind_index_lt (k : MessageKind) : k.index < 5 := by
  cases k <;> simp [MessageKind.index]

theorem ofIndex_index (k : MessageKind) :
    MessageKind.ofIndex k.index = some k := by
  cases k <;> rfl

theorem headerDecode_headerEncode (h : MessageHeader) (a b : Nat)
    (hm : h.magic = [a, b]) (hs : h.sequence < 65536)
    (hp : h.payload_length < 65536) (rest : List Nat) :
    headerDecode (headerEncode h ++ rest) = some (h, rest) := by
  obtain ⟨magic, version, kind, sequence, payload_length, header_checksum⟩ := h
  simp only at hm hs hp
  subst hm
  have hidx : kind.index < 128 := by have := kind_index_lt kind; omega
  rw [headerEncode, varintEncode_small kind.index hidx]
  simp only [List.cons_append, List.nil_append, List.append_assoc]
  simp only [headerDecode, varintDecodeU32_small _ _ hidx, ofIndex_index,
    varintDecodeU16_encode _ hs, varintDecodeU16_encode _ hp]

theorem validate_checksum_new (kind : MessageKind) (s p : Nat) :
    (MessageHeader.new kind s p).validate_checksum = true := by
  simp [MessageHeader.new, MessageHeader.validate_checksum, MESSAGE_MAGIC]

theorem tryFrom_append_ok {T : Type} (dec : List Nat → Option T)
    (h : MessageHeader) (pb : List Nat) (payload : T) (c : Nat)
    (hm : h.magic = MESSAGE_MAGIC) (hv : h.version = PROTOCOL_VERSION)
    (hck : h.validate_checksum = true)
    (hpl : h.payload_length = pb.length)
    (hs : h.sequence < 65536) (hpb : pb.length < 65536)
    (hlen : 9 ≤ (headerEncode h).length + pb.length + 1)
    (hdec : dec pb = some payload)
    (hc : calculate_checksum pb = c) :
    Message.tryFrom dec (headerEncode h ++ (pb ++ [c])) = .ok ⟨h, payload, c⟩ := by
  have hdecode : headerDecode (headerEncode h ++ (pb ++ [c])) = some (h, pb ++ [c]) :=
    headerDecode_headerEncode h 0xDC 0x42 (by rw [hm]; rfl) hs (by omega) _
  have hL : (headerEncode h ++ (pb ++ [c])).length
      = (headerEncode h).length + pb.length + 1 := by
    simp [List.length_append]; omega
  have hdrop : ((headerEncode h ++ (pb ++ [c])).drop (headerEncode h).length)
      = pb ++ [c] :=
    List.drop_left _ _
  have htake : ((pb ++ [c]).take pb.length) = pb := List.take_left _ _
  have hgetD : (headerEncode h ++ (pb ++ [c])).getD
      ((headerEncode h).length + pb.length) 0 = c := by
    rw [show headerEncode h ++ (pb ++ [c]) = (headerEncode h ++ pb) ++ [c] by simp]
    rw [List.getD_eq_getElem?_getD]
    rw [List.getElem?_append_right (by simp)]
    simp
  unfold Message.tryFrom
  rw [if_neg (by omega : ¬ (headerEncode h ++ (pb ++ [c])).length < 9)]
  simp only [hdecode]
  have hhs : (headerEncode h ++ (pb ++ [c])).length - (pb ++ [c]).length
      = (headerEncode h).length := by
    simp [List.length_append]
  rw [hhs]
  rw [if_neg (by rw [hm]; simp)]
  rw [if_neg (by rw [hv]; simp)]
  rw [if_neg (by rw [hck]; simp)]
  rw [if_neg (by rw [hpl]; omega)]
  rw [hdrop, hpl, htake]
  simp only [hdec]
  rw [hgetD]
  rw [if_neg (by omega)]

/-- Claim C1 (amended): round-trip.  For every payload codec, kind, in-range
sequence, and payload, if `Message::new` succeeds and `Message::serialize`
succeeds, and the serialized length is at least the 9-byte parser minimum,
then parsing the first `length` bytes of the serialized buffer succeeds and
yields a message equal in all fields to the constructed one.  (The claim as
frozen, without the 9-byte condition, is refuted by
`round_trip_min_length_cex`.) -/
theorem serialize_parse_round_trip {T : Type} (enc : T → Option (List Nat))
    (dec : List Nat → Option T) (kind : MessageKind) (sequence : Nat)
    (payload : T) (pb : List Nat) (msg : Message T) (len : Nat)
    (buf : List Nat)
    (henc : enc payload = some pb) (hdec : dec pb = some payload)
    (hseq : sequence < 65536)
    (hnew : Message.new enc kind sequence payload = .ok msg)
    (hser : Message.serialize enc msg = .ok (len, buf))
    (hlen : 9 ≤ len) :
    Message.tryFrom dec (buf.take len) = .ok msg := by
  unfold Message.new at hnew
  rw [henc] at hnew
  dsimp only at hnew
  split at hnew
  · exact absurd hnew (by simp)
  · split at hnew
    · exact absurd hnew (by simp)
    · simp only [Except.ok.injEq] at hnew
      subst hnew
      rename_i hb256 hb65535
      unfold Message.serialize at hser
      dsimp only at hser
      rw [henc] at hser
      dsimp only at hser
      split at hser
      · exact absurd hser (by simp)
      · split at hser
        · exact absurd hser (by simp)
        · split at hser
          · exact absurd hser (by simp)
          · simp only [Except.ok.injEq, Prod.mk.injEq] at hser
            obtain ⟨hlen2, hbuf⟩ := hser
            subst hlen2
            subst hbuf
            have htake : ((headerEncode (MessageHeader.new kind sequence pb.length) ++ pb ++
                [calculate_checksum pb]) ++
                List.replicate (MAX_MESSAGE_SIZE -
                  ((headerEncode (MessageHeader.new kind sequence pb.length)).length +
                    pb.length + 1)) 0).take
                ((headerEncode (MessageHeader.new kind sequence pb.length)).length +
                  pb.length + 1)
              = headerEncode (MessageHeader.new kind sequence pb.length) ++ (pb ++
                [calculate_checksum pb]) := by
              rw [show (headerEncode (MessageHeader.new kind sequence pb.length)).length +
                  pb.length + 1
                = (headerEncode (MessageHeader.new kind sequence pb.length) ++ pb ++
                  [calculate_checksum pb]).length by simp; omega]
              rw [List.take_left]
              simp
            rw [htake]
            exact tryFrom_append_ok dec _ pb payload _ rfl rfl
              (validate_checksum_new _ _ _) rfl hseq
              (by unfold MAX_MESSAGE_SIZE at hb256; omega)
              (by omega) hdec rfl

/-- Claim C1 witness: the round-trip theorem applied to the concrete message
`Message::<()>::new(Command, 300, ())`, whose serialization is exactly 9
bytes. -/
theorem serialize_parse_round_trip_witness :
    Message.tryFrom decUnit (bufUnit300.take 9) = .ok msgUnit300 :=
  serialize_parse_round_trip encUnit decUnit .Command 300 () [] msgUnit300 9
    bufUnit300 rfl rfl (by decide) (by decide) (by decide) (by decide)

/-- Claim C1 counterexample: `Message::<()>::new(Command, 0, ())` has an
empty payload encoding, its serialization is 8 bytes, and parsing those 8
bytes fails with `InvalidFormat` because of the 9-byte parser minimum, so
the round-trip property as frozen fails for this valid in-bound payload. -/
theorem round_trip_min_length_cex :
    Message.new encUnit .Command 0 () = .ok msgUnit0 ∧
    Message.serialize encUnit msgUnit0 = .ok (8, bufUnit0) ∧
    Message.tryFrom decUnit (bufUnit0.take 8) = .error .InvalidFormat := by
  refine ⟨by decide, by decide, by decide⟩

/-- Claim C2 (amended): wire layout.  For every message, a successful
`Message::serialize` writes the postcard header encoding (magic at offsets
0–1, version at 2, the 0-based variant index of the kind as a varint, then
`sequence` and `payload_length` as varints of 1–3 bytes each, then the
header checksum byte), followed by the payload bytes and the trailing
payload checksum; the returned length is header-encoding size + payload
size + 1, and the rest of the fixed buffer is zero padding.  (The frozen
fixed 9-byte big-endian layout is refuted by `serialize_wire_layout_cex`.) -/
theorem serialize_wire_layout {T : Type} (enc : T → Option (List Nat))
    (m : Message T) (pb : List Nat) (len : Nat) (buf : List Nat)
    (henc : enc m.payload = some pb)
    (hser : Message.serialize enc m = .ok (len, buf)) :
    len = (headerEncode m.header).length + pb.length + 1 ∧
    buf = (headerEncode m.header ++ pb ++ [m.payload_checksum]) ++
      List.replicate (MAX_MESSAGE_SIZE - len) 0 ∧
    headerEncode m.header =
      m.header.magic ++ [m.header.version] ++ varintEncode m.header.kind.index ++
        varintEncode m.header.sequence ++ varintEncode m.header.payload_length ++
        [m.header.header_checksum] := by
  unfold Message.serialize at hser
  dsimp only at hser
  rw [henc] at hser
  dsimp only at hser
  split at hser
  · exact absurd hser (by simp)
  · split at hser
    · exact absurd hser (by simp)
    · split at hser
      · exact absurd hser (by simp)
      · simp only [Except.ok.injEq, Prod.mk.injEq] at hser
        obtain ⟨h1, h2⟩ := hser
        refine ⟨h1.symm, ?_, rfl⟩
        rw [← h2, ← h1]

/-- Claim C2 witness: the wire-layout theorem applied to the §8 scenario
message (kind Command, sequence 123, payload `GetBatteryStatus`). -/
theorem serialize_wire_layout_witness :
    (9 : Nat) = (headerEncode scenarioMsg.header).length + ([8] : List Nat).length + 1 ∧
    scenarioBuf = (headerEncode scenarioMsg.header ++ [8] ++ [scenarioMsg.payload_checksum]) ++
      List.replicate (MAX_MESSAGE_SIZE - 9) 0 ∧
    headerEncode scenarioMsg.header =
      scenarioMsg.header.magic ++ [scenarioMsg.header.version] ++
        varintEncode scenarioMsg.header.kind.index ++
        varintEncode scenarioMsg.header.sequence ++
        varintEncode scenarioMsg.header.payload_length ++
        [scenarioMsg.header.header_checksum] :=
  serialize_wire_layout commandEncode scenarioMsg [8] 9 scenarioBuf rfl (by decide)

/-- Claim C2 counterexample: in the §8 scenario the serialized message is 9
bytes in total, not 9 + payload + 1 = 11, the kind `Command` is encoded as
byte 0 (variant index), not 1, and the header checksum byte (99) sits at
offset 6, while offset 8 holds the payload checksum 247. -/
theorem serialize_wire_layout_cex :
    Message.new commandEncode .Command 123 .GetBatteryStatus = .ok scenarioMsg ∧
    Message.serialize commandEncode scenarioMsg = .ok (9, scenarioBuf) ∧
    (9 : Nat) ≠ 9 + 1 + 1 ∧
    scenarioBuf.getD 3 0 = 0 ∧
    scenarioMsg.header.header_checksum = 99 ∧
    scenarioBuf.getD 6 0 = 99 ∧
    scenarioBuf.getD 8 0 = 247 ∧
    scenarioBuf.getD 8 0 ≠ scenarioMsg.header.header_checksum := by
  refine ⟨by decide, by decide, by decide, by decide, by decide, by decide,
    by decide, by decide⟩

/-- Claim C3: header construction.  For every kind, sequence and
payload_length, `MessageHeader::new` sets magic to `MESSAGE_MAGIC`, version
to `PROTOCOL_VERSION`, stores kind/sequence/payload_length verbatim,
computes `header_checksum` over the eight header bytes in declared field
order with the multi-byte fields big-endian, never fails, and the resulting
header always satisfies `validate_checksum()`. -/
theorem messageHeader_new_spec (kind : MessageKind)
    (sequence payload_length : Nat) :
    (MessageHeader.new kind sequence payload_length).magic = MESSAGE_MAGIC ∧
    (MessageHeader.new kind sequence payload_length).version = PROTOCOL_VERSION ∧
    (MessageHeader.new kind sequence payload_length).kind = kind ∧
    (MessageHeader.new kind sequence payload_length).sequence = sequence ∧
    (MessageHeader.new kind sequence payload_length).payload_length = payload_length ∧
    (MessageHeader.new kind sequence payload_length).header_checksum =
      calculate_checksum
        [MESSAGE_MAGIC.getD 0 0, MESSAGE_MAGIC.getD 1 0, PROTOCOL_VERSION,
         kind.discr, sequence / 256 % 256, sequence % 256,
         payload_length / 256 % 256, payload_length % 256] ∧
    (MessageHeader.new kind sequence payload_length).validate_checksum = true :=
  ⟨rfl, rfl, rfl, rfl, rfl, rfl, validate_checksum_new kind sequence payload_length⟩

/-- Claim C4: checksum definition.  For every byte sequence,
`calculate_checksum` returns the bitwise NOT (xor with 255, equivalently
255 minus) of the mod-256 sum of all input bytes; the result is always an
8-bit value, and on empty input it is 0xFF. -/
theorem checksum_complement_of_wrapping_sum :
    (∀ data : List Nat,
      calculate_checksum data = Nat.xor (data.sum % 256) 255 ∧
      calculate_checksum data = 255 - data.sum % 256 ∧
      calculate_checksum data < 256) ∧
    calculate_checksum [] = 255 := by
  constructor
  · intro data
    refine ⟨calculate_checksum_eq_sum data, ?_, calculate_checksum_lt data⟩
    rw [calculate_checksum_eq_sum, xor_255_eq _ (Nat.mod_lt _ (by omega))]
  · rfl

/-- Claim C5: parse gate order.  For every input that passes the 9-byte
minimum and whose header decodes, the magic, version and header-checksum
checks run in that fixed order and the first failing one determines the
error: bad magic gives `InvalidMagic` (regardless of version/checksum), good
magic with bad version gives `UnsupportedVersion`, and good magic/version
with a bad header checksum gives `ChecksumMismatch`. -/
theorem parse_gate_order {T : Type} (dec : List Nat → Option T)
    (data : List Nat) (header : MessageHeader) (rest : List Nat)
    (h9 : 9 ≤ data.length)
    (hd : headerDecode data = some (header, rest)) :
    (header.magic ≠ MESSAGE_MAGIC →
      Message.tryFrom dec data = .error .InvalidMagic) ∧
    (header.magic = MESSAGE_MAGIC → header.version ≠ PROTOCOL_VERSION →
      Message.tryFrom dec data = .error .UnsupportedVersion) ∧
    (header.magic = MESSAGE_MAGIC → header.version = PROTOCOL_VERSION →
      header.validate_checksum = false →
      Message.tryFrom dec data = .error .ChecksumMismatch) := by
  unfold Message.tryFrom
  rw [if_neg (by omega)]
  simp only [hd]
  refine ⟨?_, ?_, ?_⟩
  · intro hm
    rw [if_pos hm]
  · intro hm hv
    rw [if_neg (by simp [hm]), if_pos hv]
  · intro hm hv hck
    rw [if_neg (by simp [hm]), if_neg (by simp [hv]), if_pos hck]

/-- Claim C5 witness: the gate-order theorem applied to three concrete
9-byte buffers: one with a corrupted magic byte, one with version 7, one
with a corrupted header checksum. -/
theorem parse_gate_order_witness :
    Message.tryFrom decUnit [0, 66, 1, 0, 0, 0, 0, 0, 0] = .error .InvalidMagic ∧
    Message.tryFrom decUnit [220, 66, 7, 0, 0, 0, 0, 0, 0] = .error .UnsupportedVersion ∧
    Message.tryFrom decUnit [220, 66, 1, 0, 0, 0, 0, 0, 0] = .error .ChecksumMismatch := by
  refine ⟨?_, ?_, ?_⟩
  · exact (parse_gate_order decUnit _ ⟨[0, 66], 1, .Command, 0, 0, 0⟩ [0, 0]
      (by decide) (by decide)).1 (by decide)
  · exact (parse_gate_order decUnit _ ⟨[220, 66], 7, .Command, 0, 0, 0⟩ [0, 0]
      (by decide) (by decide)).2.1 (by decide) (by decide)
  · exact (parse_gate_order decUnit _ ⟨[220, 66], 1, .Command, 0, 0, 0⟩ [0, 0]
      (by decide) (by decide)).2.2 (by decide) (by decide) (by decide)

/-- Claim C6: truncation handling.  `Message::try_from` returns
`InvalidFormat` for every input shorter than 9 bytes, and for every input
whose header decodes and passes magic/version/checksum validation it returns
`InvalidFormat` whenever the buffer is shorter than
header_bytes_consumed + payload_length + 1. -/
theorem parse_truncation {T : Type} (dec : List Nat → Option T)
    (data : List Nat) :
    (data.length < 9 → Message.tryFrom dec data = .error .InvalidFormat) ∧
    (∀ header rest, headerDecode data = some (header, rest) →
      header.magic = MESSAGE_MAGIC → header.version = PROTOCOL_VERSION →
      header.validate_checksum = true →
      data.length < (data.length - rest.length) + header.payload_length + 1 →
      Message.tryFrom dec data = .error .InvalidFormat) := by
  constructor
  · intro h9
    unfold Message.tryFrom
    rw [if_pos h9]
  · intro header rest hd hm hv hck hlen
    by_cases h9 : data.length < 9
    · unfold Message.tryFrom
      rw [if_pos h9]
    · unfold Message.tryFrom
      rw [if_neg h9]
      simp only [hd]
      rw [if_neg (by simp [hm]), if_neg (by simp [hv]), if_neg (by simp [hck]),
        if_pos hlen]

/-- Claim C6 witness: the truncation theorem applied to a 2-byte input and
to a 9-byte input whose valid header declares a 5-byte payload (so 13 bytes
would be needed). -/
theorem parse_truncation_witness :
    Message.tryFrom decUnit [220, 66] = .error .InvalidFormat ∧
    Message.tryFrom decUnit [220, 66, 1, 0, 0, 5, 218, 0, 0] = .error .InvalidFormat := by
  constructor
  · exact (parse_truncation decUnit [220, 66]).1 (by decide)
  · exact (parse_truncation decUnit _).2 ⟨[220, 66], 1, .Command, 0, 5, 218⟩
      [0, 0] (by decide) (by decide) (by decide) (by decide) (by decide)

/-- Claim C7 (amended): size bound at construction.  A payload whose
encoding exceeds `MAX_MESSAGE_SIZE` is rejected by `Message::new` with
`SerializationError` (the scratch-buffer write fails), not
`MessageTooLarge`; and a message that `Message::new` accepted can only
serialize to at most `MAX_MESSAGE_SIZE` bytes — encodings that fit the
scratch buffer but overflow header+payload+1 are rejected at serialization,
not at construction (see `size_bound_cex`). -/
theorem size_bound_at_construction {T : Type} (enc : T → Option (List Nat))
    (kind : MessageKind) (sequence : Nat) (payload : T) (pb : List Nat)
    (henc : enc payload = some pb) :
    (MAX_MESSAGE_SIZE < pb.length →
      Message.new enc kind sequence payload = .error .SerializationError) ∧
    (∀ msg, Message.new enc kind sequence payload = .ok msg →
      ∀ len buf, Message.serialize enc msg = .ok (len, buf) →
        len ≤ MAX_MESSAGE_SIZE) := by
  constructor
  · intro hb
    unfold Message.new
    rw [henc]
    dsimp only
    rw [if_pos hb]
  · intro msg hnew len buf hser
    unfold Message.new at hnew
    rw [henc] at hnew
    dsimp only at hnew
    split at hnew
    · exact absurd hnew (by simp)
    · split at hnew
      · exact absurd hnew (by simp)
      · simp only [Except.ok.injEq] at hnew
        subst hnew
        unfold Message.serialize at hser
        dsimp only at hser
        rw [henc] at hser
        dsimp only at hser
        split at hser
        · exact absurd hser (by simp)
        · split at hser
          · exact absurd hser (by simp)
          · split at hser
            · exact absurd hser (by simp)
            · simp only [Except.ok.injEq, Prod.mk.injEq] at hser
              obtain ⟨h1, h2⟩ := hser
              rename_i hTooLarge
              unfold MAX_MESSAGE_SIZE at hTooLarge ⊢
              omega

/-- Claim C7 witness: the amended size-bound theorem applied to a 300-byte
payload encoding (construction fails with `SerializationError`) and to the
1-byte payload `[5]` (whose 9-byte serialization is within the bound). -/
theorem size_bound_at_construction_witness :
    Message.new encBytes .Command 0 (List.replicate 300 1) = .error .SerializationError ∧
    (9 : Nat) ≤ MAX_MESSAGE_SIZE := by
  constructor
  · exact (size_bound_at_construction encBytes .Command 0 (List.replicate 300 1)
      (List.replicate 300 1) rfl).1 (by decide)
  · exact (size_bound_at_construction encBytes .Command 0 [5] [5] rfl).2
      ⟨MessageHeader.new .Command 0 1, [5], calculate_checksum [5]⟩ (by decide) 9
      (([220, 66, 1, 0, 0, 1, 222] ++ [5] ++ [250]) ++ List.replicate 247 0)
      (by decide)

/-- Claim C7 counterexample: the payload `[7; 250]` encodes to 250 bytes, so
encoded + header (8) + 1 = 259 exceeds `MAX_MESSAGE_SIZE` = 256; yet
`Message::new` succeeds (it does not return `MessageTooLarge`), and the
oversize is only rejected later, by `Message::serialize`, and even then with
`SerializationError`. -/
theorem size_bound_cex :
    MAX_MESSAGE_SIZE <
      (headerEncode msg250.header).length + (List.replicate 250 7).length + 1 ∧
    Message.new encBytes .Command 0 (List.replicate 250 7) = .ok msg250 ∧
    Message.serialize encBytes msg250 = .error .SerializationError := by
  refine ⟨by decide, by decide, by decide⟩

/-- Claim C8: payload checksum verification.  For every input that passes
header validation and the length check and whose payload slice (exactly
`payload_length` bytes after the header) decodes, a mismatch between the
recomputed checksum of that slice and the byte at index
header_size + payload_length yields `ChecksumMismatch`. -/
theorem parse_payload_checksum {T : Type} (dec : List Nat → Option T)
    (data : List Nat) (header : MessageHeader) (rest : List Nat) (payload : T)
    (h9 : 9 ≤ data.length)
    (hd : headerDecode data = some (header, rest))
    (hm : header.magic = MESSAGE_MAGIC)
    (hv : header.version = PROTOCOL_VERSION)
    (hck : header.validate_checksum = true)
    (hlen : (data.length - rest.length) + header.payload_length + 1 ≤ data.length)
    (hdec : dec ((data.drop (data.length - rest.length)).take header.payload_length)
      = some payload)
    (hmis : calculate_checksum
        ((data.drop (data.length - rest.length)).take header.payload_length)
      ≠ data.getD ((data.length - rest.length) + header.payload_length) 0) :
    Message.tryFrom dec data = .error .ChecksumMismatch := by
  unfold Message.tryFrom
  rw [if_neg (by omega)]
  simp only [hd]
  rw [if_neg (by simp [hm]), if_neg (by simp [hv]), if_neg (by simp [hck]),
    if_neg (by omega)]
  simp only [hdec]
  rw [if_pos hmis]

/-- Claim C8 witness: the payload-checksum theorem applied to a 9-byte
buffer with a valid header, payload byte 8, and a corrupted trailing
checksum 0 (the correct one is 247). -/
theorem parse_payload_checksum_witness :
    Message.tryFrom decBytes [220, 66, 1, 0, 0, 1, 222, 8, 0] = .error .ChecksumMismatch :=
  parse_payload_checksum decBytes [220, 66, 1, 0, 0, 1, 222, 8, 0]
    ⟨[220, 66], 1, .Command, 0, 1, 222⟩ [8, 0] [8]
    (by decide) (by decide) (by decide) (by decide) (by decide) (by decide)
    (by decide) (by decide)

/-- Claim C9: no partially validated value escapes parsing.  Every message
returned by `Message::try_from` has the protocol magic and version, a header
that passes `validate_checksum`, a payload decoded from exactly the
`payload_length` bytes after the header, and a `payload_checksum` equal to
the recomputed checksum of those bytes.  (On any error the `Except` carries
no message value at all.) -/
theorem parse_fully_validated {T : Type} (dec : List Nat → Option T)
    (data : List Nat) (m : Message T)
    (hok : Message.tryFrom dec data = .ok m) :
    m.header.magic = MESSAGE_MAGIC ∧
    m.header.version = PROTOCOL_VERSION ∧
    m.header.validate_checksum = true ∧
    ∃ rest, headerDecode data = some (m.header, rest) ∧
      dec ((data.drop (data.length - rest.length)).take m.header.payload_length)
        = some m.payload ∧
      m.payload_checksum = calculate_checksum
        ((data.drop (data.length - rest.length)).take m.header.payload_length) := by
  unfold Message.tryFrom at hok
  split at hok
  next => exact absurd hok (by simp)
  next h9 =>
  split at hok
  next => exact absurd hok (by simp)
  next header rest heq =>
  dsimp only at hok
  split at hok
  next => exact absurd hok (by simp)
  next hm =>
  split at hok
  next => exact absurd hok (by simp)
  next hv =>
  split at hok
  next => exact absurd hok (by simp)
  next hck =>
  split at hok
  next => exact absurd hok (by simp)
  next hfit =>
  split at hok
  next => exact absurd hok (by simp)
  next payload hpdec =>
  split at hok
  next => exact absurd hok (by simp)
  next hmis =>
  simp only [Except.ok.injEq] at hok
  subst hok
  refine ⟨by simpa using hm, by simpa using hv, ?_, rest, heq, hpdec, ?_⟩
  · cases hb : header.validate_checksum with
    | false => exact absurd hb hck
    | true => rfl
  · exact (not_ne_iff.mp hmis).symm

/-- Claim C9 witness: the full-validation theorem applied to the concrete
well-formed wire message `goodData`, which parses to `goodMsg`. -/
theorem parse_fully_validated_witness :
    goodMsg.header.magic = MESSAGE_MAGIC ∧
    goodMsg.header.version = PROTOCOL_VERSION ∧
    goodMsg.header.validate_checksum = true ∧
    ∃ rest, headerDecode goodData = some (goodMsg.header, rest) ∧
      decBytes ((goodData.drop (goodData.length - rest.length)).take
        goodMsg.header.payload_length) = some goodMsg.payload ∧
      goodMsg.payload_checksum = calculate_checksum
        ((goodData.drop (goodData.length - rest.length)).take
          goodMsg.header.payload_length) :=
  parse_fully_validated decBytes goodData goodMsg (by decide)

/-- Claim C10: `Message::new` never returns `MessageTooLarge`.  The payload
is serialized into a `MAX_MESSAGE_SIZE` (256) byte buffer, so a successful
encoding is at most 256 bytes and the `> u16::MAX` branch is unreachable:
construction either fails with `SerializationError` or succeeds. -/
theorem message_new_never_too_large {T : Type} (enc : T → Option (List Nat))
    (kind : MessageKind) (sequence : Nat) (payload : T) :
    Message.new enc kind sequence payload = .error .SerializationError ∨
    ∃ msg, Message.new enc kind sequence payload = .ok msg := by
  unfold Message.new
  cases henc : enc payload with
  | none => left; rfl
  | some pb =>
    dsimp only
    by_cases hb : MAX_MESSAGE_SIZE < pb.length
    · left; rw [if_pos hb]
    · right
      rw [if_neg hb, if_neg (by unfold MAX_MESSAGE_SIZE at hb; omega)]
      exact ⟨_, rfl⟩

end DiveProto
